import Mathlib

/-!
Shallow embedding of `src/md2pdf.py`, the markdown-to-LaTeX resume
transpiler.  Strings are modelled as `List Char`.  Python regular-expression
substitutions are modelled by recursive scanners implementing the exact
non-greedy semantics of the patterns used in the source; the scanning loops
whose cursor can jump are written with an explicit fuel argument (so that
everything evaluates inside the kernel), with the fuel justified by the
strict cursor-increase property of every branch.
-/

namespace Md2Pdf

/-- ASCII whitespace, as recognised by Python `str.strip` and regex `\s`. -/
def isPySpace (c : Char) : Bool :=
  c = ' ' || c = '\t' || c = '\n' || c = '\r' || c = '\x0b' || c = '\x0c'

/-- Python `str.strip()`. -/
def pyStrip (l : List Char) : List Char :=
  ((l.dropWhile isPySpace).reverse.dropWhile isPySpace).reverse

/-- Python `str.lower()` (ASCII case mapping). -/
def pyLower (l : List Char) : List Char := l.map Char.toLower

/-- Python `str.split('\n')` (always returns at least one piece). -/
def pySplit : List Char → List (List Char)
  | [] => [[]]
  | c :: cs =>
    match pySplit cs with
    | [] => [[c]]
    | h :: t => if c = '\n' then [] :: h :: t else (c :: h) :: t

/-- Split at the first occurrence of `sep` (Python `s.split(sep, 1)` when
`sep` occurs in `s`; `none` otherwise). -/
def splitOnce (sep : List Char) : List Char → Option (List Char × List Char)
  | [] => if sep.isPrefixOf ([] : List Char) then some ([], []) else none
  | c :: cs =>
    if sep.isPrefixOf (c :: cs) then some ([], (c :: cs).drop sep.length)
    else (splitOnce sep cs).map (fun p => (c :: p.1, p.2))

/-- Python substring test `sep in l`. -/
def containsSub (sep l : List Char) : Bool := (splitOnce sep l).isSome

/-- Replace every occurrence of the character `c` by `r` (Python
`str.replace` with a one-character pattern). -/
def replaceChar (c : Char) (r : List Char) (l : List Char) : List Char :=
  l.flatMap (fun x => if x = c then r else [x])

/-- `escape_tex` from the source: escape `& % # _`. -/
def escape_tex (t : List Char) : List Char :=
  replaceChar '_' ['\\', '_']
    (replaceChar '#' ['\\', '#']
      (replaceChar '%' ['\\', '%']
        (replaceChar '&' ['\\', '&'] t)))

/-- Non-greedy `(.+?)\*\*`: the shortest non-empty newline-free prefix that
is immediately followed by `**`; returns it and what follows the `**`. -/
def boldClose : List Char → Option (List Char × List Char)
  | [] => none
  | c :: cs =>
    if c = '\n' then none
    else
      match cs with
      | '*' :: '*' :: rest => some ([c], rest)
      | _ => (boldClose cs).map (fun p => (c :: p.1, p.2))

/-- Non-greedy `(.+?)\*`: shortest non-empty newline-free prefix followed
by `*`. -/
def italClose : List Char → Option (List Char × List Char)
  | [] => none
  | c :: cs =>
    if c = '\n' then none
    else
      match cs with
      | '*' :: rest => some ([c], rest)
      | _ => (italClose cs).map (fun p => (c :: p.1, p.2))

/-- Non-greedy `(.+?)\)`: shortest non-empty newline-free prefix followed
by `)`. -/
def parenClose : List Char → Option (List Char × List Char)
  | [] => none
  | c :: cs =>
    if c = '\n' then none
    else
      match cs with
      | ')' :: rest => some ([c], rest)
      | _ => (parenClose cs).map (fun p => (c :: p.1, p.2))

/-- Non-greedy `(.+?)\]\((.+?)\)` after the opening `[`, with backtracking
of the first group when no closing parenthesis follows a candidate `](`. -/
def linkClose : List Char → Option (List Char × List Char × List Char)
  | [] => none
  | c :: cs =>
    if c = '\n' then none
    else
      match cs with
      | ']' :: '(' :: rest =>
        match parenClose rest with
        | some (cap2, rest2) => some ([c], cap2, rest2)
        | none => (linkClose cs).map (fun p => (c :: p.1, p.2.1, p.2.2))
      | _ => (linkClose cs).map (fun p => (c :: p.1, p.2.1, p.2.2))

/-- `re.sub(r'\*\*(.+?)\*\*', r'\\textbf{\1}', t)`.  The fuel is an upper
bound on the number of scanning steps; each step consumes at least one
character, so `t.length + 1` always suffices. -/
def subBoldFuel : Nat → List Char → List Char
  | 0, l => l
  | _ + 1, [] => []
  | n + 1, '*' :: '*' :: rest =>
    match boldClose rest with
    | some (cap, rest2) =>
      ("\\textbf\x7b").data ++ cap ++ '\x7d' :: subBoldFuel n rest2
    | none => '*' :: subBoldFuel n ('*' :: rest)
  | n + 1, c :: rest => c :: subBoldFuel n rest

def subBold (l : List Char) : List Char := subBoldFuel (l.length + 1) l

/-- `re.sub(r'\*(.+?)\*', r'\\textit{\1}', t)`. -/
def subItalicFuel : Nat → List Char → List Char
  | 0, l => l
  | _ + 1, [] => []
  | n + 1, '*' :: rest =>
    match italClose rest with
    | some (cap, rest2) =>
      ("\\textit\x7b").data ++ cap ++ '\x7d' :: subItalicFuel n rest2
    | none => '*' :: subItalicFuel n rest
  | n + 1, c :: rest => c :: subItalicFuel n rest

def subItalic (l : List Char) : List Char := subItalicFuel (l.length + 1) l

/-- `re.sub(r'\[(.+?)\]\((.+?)\)', r'\\href{\2}{\1}', t)`. -/
def subLinkFuel : Nat → List Char → List Char
  | 0, l => l
  | _ + 1, [] => []
  | n + 1, '[' :: rest =>
    match linkClose rest with
    | some (cap1, cap2, rest2) =>
      ("\\href\x7b").data ++ cap2 ++ '\x7d' :: '\x7b' :: cap1 ++ '\x7d' :: subLinkFuel n rest2
    | none => '[' :: subLinkFuel n rest
  | n + 1, c :: rest => c :: subLinkFuel n rest

def subLink (l : List Char) : List Char := subLinkFuel (l.length + 1) l

/-- The typographic replacements at the end of `fmt`: arrow, en dash and
curly quotes. -/
def symbolSub (t : List Char) : List Char :=
  replaceChar '\u201d' [Char.ofNat 39, Char.ofNat 39]
    (replaceChar '\u201c' (("``").data)
      (replaceChar '\u2013' (("--").data)
        (replaceChar '\u2192' (("$\\rightarrow$").data) t)))

/-- `fmt` from the source: escape first, then bold, then italic, then
links, then typographic symbols. -/
def fmt (t : List Char) : List Char :=
  symbolSub (subLink (subItalic (subBold (escape_tex t))))

/-- The prioritized separators of `parse_heading3`: spaced em dash, spaced
double hyphen, spaced escaped em dash, bare em dash. -/
def h3seps : List (List Char) :=
  [(" \u2014 ").data, (" -- ").data, (" \\textemdash ").data, ("\u2014").data]

/-- Try each separator in order; split at the first that occurs. -/
def splitFirstSep : List (List Char) → List Char → Option (List Char × List Char)
  | [], _ => none
  | s :: ss, text =>
    match splitOnce s text with
    | some p => some p
    | none => splitFirstSep ss text

/-- `parse_heading3` from the source. -/
def parse_heading3 (line : List Char) : List Char × List Char :=
  let text := pyStrip (line.dropWhile (fun c => c = '#'))
  match splitFirstSep h3seps text with
  | some (a, b) => (pyStrip a, pyStrip b)
  | none => (text, [])

/-- The anchored match `\*\*(.+?)\*\*` at the start of a string: the
capture and the remainder after the closing `**`. -/
def metaMatch : List Char → Option (List Char × List Char)
  | '*' :: '*' :: rest => boldClose rest
  | _ => none

/-- The optional trailing group `(?:\s*\|\s*\*(.+?)\*)?` of `parse_meta`. -/
def metaExtra (rest : List Char) : Option (List Char) :=
  match rest.dropWhile isPySpace with
  | '|' :: r2 =>
    match r2.dropWhile isPySpace with
    | '*' :: r4 => (italClose r4).map (fun p => p.1)
    | _ => none
  | _ => none

/-- `parse_meta` from the source; returns `(location, dates, extra)`. -/
def parse_meta (line : List Char) : List Char × List Char × List Char :=
  let raw := pyStrip line
  match metaMatch raw with
  | none => ([], [], [])
  | some (cap1, rest2) =>
    let extra :=
      match metaExtra rest2 with
      | some e => pyStrip e
      | none => []
    let bold_part := pyStrip cap1
    match splitOnce (("|").data) bold_part with
    | some (loc, dates) => (pyStrip loc, pyStrip dates, extra)
    | none => ([], pyStrip bold_part, extra)

/-- `.replace('–', '--')` (en dash, U+2013). -/
def replaceEnDash (l : List Char) : List Char :=
  replaceChar '\u2013' (("--").data) l

/-- Minimal `(.+?):`: shortest non-empty newline-free prefix followed by a
colon; returns it and what follows the colon. -/
def colonSplit : List Char → Option (List Char × List Char)
  | [] => none
  | c :: cs =>
    if c = '\n' then none
    else
      match cs with
      | ':' :: rest => some ([c], rest)
      | _ => (colonSplit cs).map (fun p => (c :: p.1, p.2))

/-- The anchored flat-bullet label match `\\textbf\{(.+?):\}?\s*(.*)` from
the bullet handler. -/
def flatLabel (text : List Char) : Option (List Char × List Char) :=
  if (("\\textbf\x7b").data).isPrefixOf text then
    match colonSplit (text.drop 8) with
    | none => none
    | some (g1, after) =>
      let after1 :=
        match after with
        | '\x7d' :: r => r
        | _ => after
      some (g1, after1.dropWhile isPySpace)
  else none

/-- The static LaTeX preamble (`LATEX_PREAMBLE` in the source), verbatim. -/
def LATEX_PREAMBLE : String :=
  "\\documentclass[letterpaper,11pt]\x7barticle\x7d\n\n\\usepackage\x7blatexsym\x7d\n\\usepackage[empty]\x7bfullpage\x7d\n\\usepackage\x7btitlesec\x7d\n\\usepackage\x7bmarvosym\x7d\n\\usepackage[usenames,dvipsnames]\x7bcolor\x7d\n\\usepackage\x7bverbatim\x7d\n\\usepackage\x7benumitem\x7d\n\\usepackage\x7bhyperref\x7d\n\\usepackage\x7bfancyhdr\x7d\n\n\\pagestyle\x7bfancy\x7d\n\\fancyhf\x7b\x7d\n\\fancyfoot\x7b\x7d\n\\renewcommand\x7b\\headrulewidth\x7d\x7b0pt\x7d\n\\renewcommand\x7b\\footrulewidth\x7d\x7b0pt\x7d\n\n\\addtolength\x7b\\oddsidemargin\x7d\x7b-0.375in\x7d\n\\addtolength\x7b\\evensidemargin\x7d\x7b-0.375in\x7d\n\\addtolength\x7b\\textwidth\x7d\x7b1in\x7d\n\\addtolength\x7b\\topmargin\x7d\x7b-.5in\x7d\n\\addtolength\x7b\\textheight\x7d\x7b1.0in\x7d\n\n\\urlstyle\x7bsame\x7d\n\\raggedbottom\n\\raggedright\n\\setlength\x7b\\tabcolsep\x7d\x7b0in\x7d\n\n\\titleformat\x7b\\section\x7d\x7b\n  \\vspace\x7b-4pt\x7d\\scshape\\raggedright\\large\n\x7d\x7b\x7d\x7b0em\x7d\x7b\x7d[\\color\x7bblack\x7d\\titlerule \\vspace\x7b-5pt\x7d]\n\n\\newcommand\x7b\\resumeSubheading\x7d[4]\x7b\n  \\vspace\x7b-1pt\x7d\\item\n    \\begin\x7btabular*\x7d\x7b0.97\\textwidth\x7d\x7bl@\x7b\\extracolsep\x7b\\fill\x7d\x7dr\x7d\n      \\textbf\x7b#1\x7d & #2 \\\\\n      \\textit\x7b\\small#3\x7d & \\textit\x7b\\small #4\x7d \\\\\n    \\end\x7btabular*\x7d\\vspace\x7b-5pt\x7d\n\x7d\n\n\\renewcommand\x7b\\labelitemii\x7d\x7b$\\circ$\x7d\n\n\\newcommand\x7b\\resumeSubHeadingListStart\x7d\x7b\\begin\x7bitemize\x7d[leftmargin=*]\x7d\n\\newcommand\x7b\\resumeSubHeadingListEnd\x7d\x7b\\end\x7bitemize\x7d\x7d\n\\newcommand\x7b\\resumeItemListStart\x7d\x7b\\begin\x7bitemize\x7d\x7d\n\\newcommand\x7b\\resumeItemListEnd\x7d\x7b\\end\x7bitemize\x7d\\vspace\x7b-5pt\x7d\x7d\n\n\\setlength\x7b\\footskip\x7d\x7b4.08003pt\x7d\n\\begin\x7bdocument\x7d\n"

/-- The emitted output lines, as functions of their variable parts. -/
def subListStartLine : List Char := ("  \\resumeSubHeadingListStart").data

def subListEndLine : List Char := ("  \\resumeSubHeadingListEnd").data

def itemListStartLine : List Char := ("    \\resumeItemListStart").data

def itemListEndLine : List Char := ("    \\resumeItemListEnd").data

def endDocLine : List Char := ("\\end\x7bdocument\x7d").data

def tabBeginLine : List Char :=
  ("\\begin\x7btabular*\x7d\x7b\\textwidth\x7d\x7bl@\x7b\\extracolsep\x7b\\fill\x7d\x7dr\x7d").data

def nameLine (name : List Char) : List Char :=
  ("  \\textbf\x7b\\Large ").data ++ (name ++ ("\x7d & \\\\").data)

def contactLine (contact : List Char) : List Char := ("  ").data ++ contact

def tabEndLine : List Char := ("\\end\x7btabular*\x7d").data

def vspace2mmLine : List Char := ("\\vspace\x7b2mm\x7d").data

def sectionLine (s : List Char) : List Char :=
  ("\\section\x7b").data ++ (s ++ ("\x7d").data)

def eduLine1 (company : List Char) : List Char :=
  ("    \\resumeSubheading\x7b").data ++ (company ++ ("\x7d\x7b\x7d").data)

def eduLine2 (uni : List Char) : List Char :=
  ("      \x7b").data ++ (uni ++ ("\x7d\x7b\x7d").data)

def inline1Line : List Char := ("    \\vspace\x7b-1pt\x7d\\item").data

def inline2Line : List Char :=
  ("      \\begin\x7btabular*\x7d\x7b0.97\\textwidth\x7d\x7bl@\x7b\\extracolsep\x7b\\fill\x7d\x7dr\x7d").data

def inline3Line (company loc : List Char) : List Char :=
  ("        \\textbf\x7b").data ++ (company ++ (("\x7d & ").data ++ (loc ++ (" \\\\").data)))

def inline4Line (role dates : List Char) : List Char :=
  ("        \\textit\x7b\\small ").data ++
    (role ++ (("\x7d & \\textit\x7b\\small ").data ++ (dates ++ ("\x7d \\\\").data)))

def inline5Line : List Char := ("      \\end\x7btabular*\x7d\\vspace\x7b2pt\x7d").data

def stdLine1 (company loc : List Char) : List Char :=
  ("    \\resumeSubheading\x7b").data ++ (company ++ (("\x7d\x7b").data ++ (loc ++ ("\x7d").data)))

def stdLine2 (role dates : List Char) : List Char :=
  ("      \x7b").data ++ (role ++ (("\x7d\x7b").data ++ (dates ++ ("\x7d").data)))

def h4Line1 (header : List Char) : List Char :=
  ("    \x7b\\small ").data ++ (header ++ ("\x7d").data)

def h4Line2 : List Char := ("    \\vspace\x7b-8pt\x7d").data

def flatLabelLine (g1 g2 : List Char) : List Char :=
  ("    \\item[$\\circ$]\\small\x7b\\textbf\x7b").data ++
    (g1 ++ (("\x7d\x7b: ").data ++ (g2 ++ ("\x7d\x7d\\vspace\x7b-5pt\x7d").data)))

def flatPlainLine (text : List Char) : List Char :=
  ("    \\item[$\\circ$]\\small\x7b").data ++ (text ++ ("\x7d\\vspace\x7b-5pt\x7d").data)

def itemLine (text : List Char) : List Char :=
  ("      \\item\\small\x7b").data ++ (text ++ ("\x7d").data)

/-- The mutable state of the `build_resume_tex` scan. -/
structure St where
  out : List (List Char)
  item_list_open : Bool
  sub_list_open : Bool
  current_section : List Char
  deriving DecidableEq

/-- `close_items` from the source. -/
def close_items (st : St) : St :=
  if st.item_list_open then
    { st with out := st.out ++ [itemListEndLine], item_list_open := false }
  else st

/-- `close_sublist` from the source (closes any open item list first). -/
def close_sublist (st : St) : St :=
  let st1 := close_items st
  if st1.sub_list_open then
    { st1 with out := st1.out ++ [subListEndLine], sub_list_open := false }
  else st1

/-- The blank-skipping loops
`while j < len(lines) and not lines[j].strip(): j += 1`. -/
def skipBlanksFuel : Nat → List (List Char) → Nat → Nat
  | 0, _, j => j
  | n + 1, lines, j =>
    if j < lines.length ∧ pyStrip (lines.getD j []) = [] then
      skipBlanksFuel n lines (j + 1)
    else j

def skipBlanks (lines : List (List Char)) (j : Nat) : Nat :=
  skipBlanksFuel (lines.length - j) lines j

/-- The kind of a (stripped) input line, in the dispatch order of the scan
loop body. -/
inductive Kind where
  | blank | h1 | h2 | h3 | h4 | bullet | other
  deriving DecidableEq

def lineKind (L : List Char) : Kind :=
  if L = [] || (("---").data).isPrefixOf L then .blank
  else
    match L with
    | '#' :: ' ' :: c :: _ => if c ≠ '#' then .h1 else .other
    | '#' :: '#' :: ' ' :: c :: _ => if c ≠ '#' then .h2 else .other
    | '#' :: '#' :: '#' :: ' ' :: c :: _ => if c ≠ '#' then .h3 else .other
    | '#' :: '#' :: '#' :: '#' :: ' ' :: c :: _ => if c ≠ '#' then .h4 else .other
    | '-' :: ' ' :: _ => .bullet
    | _ => .other

/-- The `# Name` handler: skip blanks after the title, consume the next
line (whatever it is) as the contact line, emit the header block. -/
def handleH1 (lines : List (List Char)) (i : Nat) (st : St) (L : List Char) : Nat × St :=
  let name := escape_tex (pyStrip (L.drop 2))
  let j := skipBlanks lines (i + 1)
  let contact := if j < lines.length then fmt (pyStrip (lines.getD j [])) else []
  (j + 1,
    { st with
        out := st.out ++
          [tabBeginLine, nameLine name, contactLine contact, tabEndLine, vspace2mmLine] })

/-- The `## Section` handler. -/
def handleH2 (st : St) (L : List Char) : St :=
  let st1 := close_sublist st
  { st1 with
      current_section := pyLower (pyStrip (L.drop 3)),
      out := st1.out ++ [sectionLine (escape_tex (pyStrip (L.drop 3))), subListStartLine],
      sub_list_open := true }

/-- The `### Heading` handler with the metadata and `####` lookaheads. -/
def handleH3 (lines : List (List Char)) (i : Nat) (st : St) (L : List Char) : Nat × St :=
  let st1 := close_items st
  let company := escape_tex (parse_heading3 L).1
  let role0 := escape_tex (parse_heading3 L).2
  let j := skipBlanks lines (i + 1)
  let metaHere : Bool :=
    if j < lines.length then (("**").data).isPrefixOf (pyStrip (lines.getD j [])) else false
  let pm := parse_meta (lines.getD j [])
  let loc := if metaHere then replaceEnDash pm.1 else []
  let dates := if metaHere then replaceEnDash pm.2.1 else []
  let extra := if metaHere then pm.2.2 else []
  let role :=
    if extra ≠ [] then
      (if role0 ≠ [] then role0 ++ ((" | ").data ++ extra) else extra)
    else role0
  let i2 := if metaHere then j + 1 else i + 1
  let peek := skipBlanks lines i2
  let has_h4 : Bool :=
    if peek < lines.length then (("####").data).isPrefixOf (pyStrip (lines.getD peek []))
    else false
  let newLines :=
    if containsSub (("education").data) st1.current_section then
      [eduLine1 company, eduLine2 (escape_tex (if dates ≠ [] then dates else loc))]
    else if has_h4 then
      [inline1Line, inline2Line, inline3Line company (escape_tex loc),
       inline4Line role (escape_tex dates), inline5Line]
    else
      [stdLine1 company (escape_tex loc), stdLine2 role (escape_tex dates)]
  (i2, { st1 with out := st1.out ++ newLines })

/-- The `#### Label` handler. -/
def handleH4 (st : St) (L : List Char) : St :=
  let st1 := close_items st
  { st1 with out := st1.out ++ [h4Line1 (escape_tex (pyStrip (L.drop 5))), h4Line2] }

/-- The flat-section test of the bullet handler. -/
def isFlatSec (sec : List Char) : Bool :=
  containsSub (("skill").data) sec || containsSub (("co-curricular").data) sec

/-- The bullet handler. -/
def handleBullet (st : St) (L : List Char) : St :=
  let text := fmt (pyStrip (L.drop 2))
  if isFlatSec st.current_section then
    match flatLabel text with
    | some (g1, g2) => { st with out := st.out ++ [flatLabelLine g1 g2] }
    | none => { st with out := st.out ++ [flatPlainLine text] }
  else if st.item_list_open then
    { st with out := st.out ++ [itemLine text] }
  else
    { st with out := st.out ++ [itemListStartLine, itemLine text], item_list_open := true }

/-- One iteration of the scan loop at cursor `i`. -/
def step (lines : List (List Char)) (i : Nat) (st : St) : Nat × St :=
  let L := pyStrip (lines.getD i [])
  match lineKind L with
  | .blank => (i + 1, st)
  | .h1 => handleH1 lines i st L
  | .h2 => (i + 1, handleH2 st L)
  | .h3 => handleH3 lines i st L
  | .h4 => (i + 1, handleH4 st L)
  | .bullet => (i + 1, handleBullet st L)
  | .other => (i + 1, st)

/-- The scan loop; the fuel bounds the number of iterations (each iteration
advances the cursor by at least one, so `lines.length` suffices from 0). -/
def scanFuel : Nat → List (List Char) → Nat → St → St
  | 0, _, _, st => st
  | n + 1, lines, i, st =>
    if i < lines.length then
      scanFuel n lines (step lines i st).1 (step lines i st).2
    else st

/-- The initial state: output buffer holds the preamble, both flags false,
empty section. -/
def initSt : St := ⟨[(LATEX_PREAMBLE).data], false, false, []⟩

/-- `build_resume_tex` as the list of output lines (before the final join). -/
def build_resume_out (md : List Char) : List (List Char) :=
  let lines := pySplit (pyStrip md)
  (close_sublist (scanFuel lines.length lines 0 initSt)).out ++ [endDocLine]

/-- `build_resume_tex` from the source: the output lines joined with
newlines. -/
def build_resume_tex (md : List Char) : List Char :=
  List.intercalate ['\n'] (build_resume_out md)

/-- List-environment directives, as whole output lines. -/
inductive Tok where
  | subOpen | subClose | itemOpen | itemClose
  deriving DecidableEq

def tokOf (l : List Char) : Option Tok :=
  if l = subListStartLine then some .subOpen
  else if l = subListEndLine then some .subClose
  else if l = itemListStartLine then some .itemOpen
  else if l = itemListEndLine then some .itemClose
  else none

/-- The sequence of directive lines occurring in an output buffer. -/
def toksOf (out : List (List Char)) : List Tok := out.filterMap tokOf

/-- The discipline actually followed by the emitted directives; the state
is `(subListOpen, itemListOpen)`. -/
def nestStep : Bool × Bool → Tok → Option (Bool × Bool)
  | (s, it), .subOpen => if s = false ∧ it = false then some (true, false) else none
  | (s, it), .subClose => if s = true ∧ it = false then some (false, false) else none
  | (s, it), .itemOpen => if it = false then some (s, true) else none
  | (s, it), .itemClose => if it = true then some (s, false) else none

def nestRun : Bool × Bool → List Tok → Option (Bool × Bool)
  | p, [] => some p
  | p, t :: ts =>
    match nestStep p t with
    | some q => nestRun q ts
    | none => none

def countTok (t : Tok) : List Tok → Nat
  | [] => 0
  | x :: xs => (if x = t then 1 else 0) + countTok t xs

/-- Open-directive counts match close-directive counts. -/
abbrev BalancedToks (ts : List Tok) : Prop :=
  countTok .subOpen ts = countTok .subClose ts ∧
  countTok .itemOpen ts = countTok .itemClose ts

/-- A sub-list close is never emitted while an item list is still open. -/
def ProperlyNested (ts : List Tok) : Prop :=
  ∀ p s, ts = p ++ Tok.subClose :: s → countTok .itemOpen p = countTok .itemClose p

/-- Machine invariant tying the emitted directives to the state flags. -/
def NestInv (st : St) : Prop :=
  nestRun (false, false) (toksOf st.out) = some (st.sub_list_open, st.item_list_open)

/-- No line of the document forges a directive line through the contact
emission (the only emission that prepends just two spaces to formatted
user text). -/
abbrev NoForgedDirective (lines : List (List Char)) : Prop :=
  ∀ l ∈ lines, tokOf ((("  ").data) ++ fmt (pyStrip l)) = none

/-- The flag invariant preserved by every handler step: the item flag can
be set with the sub flag clear only before any section header has been
seen (empty `current_section`), and the sub flag is clear only then. -/
abbrev FlagInv (st : St) : Prop :=
  (st.item_list_open = true → st.sub_list_open = true ∨ st.current_section = []) ∧
  (st.sub_list_open = false → st.current_section = [])

/-! ### Helper lemmas -/

theorem isPrefixOf_append_self (p rest : List Char) : p.isPrefixOf (p ++ rest) = true := by
  induction p with
  | nil => simp [List.isPrefixOf]
  | cons c cs ih => simp [List.isPrefixOf, ih]

theorem ne_of_not_lead {p rest d : List Char} (h : p.isPrefixOf d = false) :
    p ++ rest ≠ d := by
  intro heq
  rw [← heq, isPrefixOf_append_self] at h
  simp at h

theorem tokOf_eq_none {l : List Char}
    (h1 : l ≠ subListStartLine) (h2 : l ≠ subListEndLine)
    (h3 : l ≠ itemListStartLine) (h4 : l ≠ itemListEndLine) : tokOf l = none := by
  simp [tokOf, h1, h2, h3, h4]

theorem tokOf_nameLine (name : List Char) : tokOf (nameLine name) = none :=
  tokOf_eq_none (ne_of_not_lead (by decide)) (ne_of_not_lead (by decide))
    (ne_of_not_lead (by decide)) (ne_of_not_lead (by decide))

theorem tokOf_sectionLine (s : List Char) : tokOf (sectionLine s) = none :=
  tokOf_eq_none (ne_of_not_lead (by decide)) (ne_of_not_lead (by decide))
    (ne_of_not_lead (by decide)) (ne_of_not_lead (by decide))

theorem tokOf_eduLine1 (c : List Char) : tokOf (eduLine1 c) = none :=
  tokOf_eq_none (ne_of_not_lead (by decide)) (ne_of_not_lead (by decide))
    (ne_of_not_lead (by decide)) (ne_of_not_lead (by decide))

theorem tokOf_eduLine2 (u : List Char) : tokOf (eduLine2 u) = none :=
  tokOf_eq_none (ne_of_not_lead (by decide)) (ne_of_not_lead (by decide))
    (ne_of_not_lead (by decide)) (ne_of_not_lead (by decide))

theorem tokOf_inline3Line (c l : List Char) : tokOf (inline3Line c l) = none :=
  tokOf_eq_none (ne_of_not_lead (by decide)) (ne_of_not_lead (by decide))
    (ne_of_not_lead (by decide)) (ne_of_not_lead (by decide))

theorem tokOf_inline4Line (r d : List Char) : tokOf (inline4Line r d) = none :=
  tokOf_eq_none (ne_of_not_lead (by decide)) (ne_of_not_lead (by decide))
    (ne_of_not_lead (by decide)) (ne_of_not_lead (by decide))

theorem tokOf_stdLine1 (c l : List Char) : tokOf (stdLine1 c l) = none :=
  tokOf_eq_none (ne_of_not_lead (by decide)) (ne_of_not_lead (by decide))
    (ne_of_not_lead (by decide)) (ne_of_not_lead (by decide))

theorem tokOf_stdLine2 (r d : List Char) : tokOf (stdLine2 r d) = none :=
  tokOf_eq_none (ne_of_not_lead (by decide)) (ne_of_not_lead (by decide))
    (ne_of_not_lead (by decide)) (ne_of_not_lead (by decide))

theorem tokOf_h4Line1 (h : List Char) : tokOf (h4Line1 h) = none :=
  tokOf_eq_none (ne_of_not_lead (by decide)) (ne_of_not_lead (by decide))
    (ne_of_not_lead (by decide)) (ne_of_not_lead (by decide))

theorem tokOf_flatLabelLine (g1 g2 : List Char) : tokOf (flatLabelLine g1 g2) = none :=
  tokOf_eq_none (ne_of_not_lead (by decide)) (ne_of_not_lead (by decide))
    (ne_of_not_lead (by decide)) (ne_of_not_lead (by decide))

theorem tokOf_flatPlainLine (t : List Char) : tokOf (flatPlainLine t) = none :=
  tokOf_eq_none (ne_of_not_lead (by decide)) (ne_of_not_lead (by decide))
    (ne_of_not_lead (by decide)) (ne_of_not_lead (by decide))

theorem tokOf_itemLine (t : List Char) : tokOf (itemLine t) = none :=
  tokOf_eq_none (ne_of_not_lead (by decide)) (ne_of_not_lead (by decide))
    (ne_of_not_lead (by decide)) (ne_of_not_lead (by decide))

theorem tokOf_const_lines :
    tokOf ((LATEX_PREAMBLE).data) = none ∧ tokOf tabBeginLine = none ∧
    tokOf tabEndLine = none ∧ tokOf vspace2mmLine = none ∧
    tokOf inline1Line = none ∧ tokOf inline2Line = none ∧
    tokOf inline5Line = none ∧ tokOf h4Line2 = none ∧ tokOf endDocLine = none := by
  refine ⟨?_, ?_, ?_, ?_, ?_, ?_, ?_, ?_, ?_⟩ <;> decide

theorem getD_mem_of_lt (l : List (List Char)) (j : Nat) (h : j < l.length) :
    l.getD j [] ∈ l := by
  rw [List.getD_eq_getElem?_getD, List.getElem?_eq_getElem h]
  exact List.getElem_mem h

theorem tokOf_contactLine {lines : List (List Char)} (hG : NoForgedDirective lines) (j : Nat) :
    tokOf (contactLine
      (if j < lines.length then fmt (pyStrip (lines.getD j [])) else [])) = none := by
  split
  · exact hG _ (getD_mem_of_lt _ _ (by assumption))
  · decide

theorem countTok_append (t : Tok) (a b : List Tok) :
    countTok t (a ++ b) = countTok t a + countTok t b := by
  induction a with
  | nil => simp [countTok]
  | cons x xs ih => simp [countTok, ih]; omega

theorem toksOf_append (a b : List (List Char)) : toksOf (a ++ b) = toksOf a ++ toksOf b :=
  List.filterMap_append a b tokOf

theorem nestRun_cons (p : Bool × Bool) (t : Tok) (ts : List Tok) :
    nestRun p (t :: ts) =
      match nestStep p t with
      | some q => nestRun q ts
      | none => none := rfl

theorem nestRun_append (a b : List Tok) (p : Bool × Bool) :
    nestRun p (a ++ b) =
      match nestRun p a with
      | some q => nestRun q b
      | none => none := by
  induction a generalizing p with
  | nil => rfl
  | cons t ts ih =>
    rw [List.cons_append, nestRun_cons, nestRun_cons]
    cases nestStep p t with
    | none => rfl
    | some q => exact ih q

theorem nestRun_counts :
    ∀ (ts : List Tok) (s it s2 it2 : Bool),
      nestRun (s, it) ts = some (s2, it2) →
      countTok .subOpen ts + s.toNat = countTok .subClose ts + s2.toNat ∧
      countTok .itemOpen ts + it.toNat = countTok .itemClose ts + it2.toNat := by
  intro ts
  induction ts with
  | nil =>
    intro s it s2 it2 h
    simp [nestRun] at h
    obtain ⟨rfl, rfl⟩ := h
    simp [countTok]
  | cons t ts ih =>
    intro s it s2 it2 h
    rw [nestRun_cons] at h
    cases t <;> cases s <;> cases it <;> simp [nestStep] at h <;>
      · obtain ⟨h1, h2⟩ := ih _ _ _ _ h
        simp [countTok, Bool.toNat_true, Bool.toNat_false] at h1 h2 ⊢
        omega

theorem nestRun_balanced (ts : List Tok)
    (h : nestRun (false, false) ts = some (false, false)) : BalancedToks ts := by
  have hc := nestRun_counts ts false false false false h
  exact ⟨by simpa using hc.1, by simpa using hc.2⟩

theorem nestRun_properlyNested (ts : List Tok) (q : Bool × Bool)
    (h : nestRun (false, false) ts = some q) : ProperlyNested ts := by
  intro p s hps
  subst hps
  rw [nestRun_append] at h
  cases hp : nestRun (false, false) p with
  | none => rw [hp] at h; simp at h
  | some r =>
    obtain ⟨r1, r2⟩ := r
    rw [hp] at h
    change nestRun (r1, r2) (Tok.subClose :: s) = some q at h
    rw [nestRun_cons] at h
    have hr : r1 = true ∧ r2 = false := by
      cases r1 <;> cases r2 <;> simp [nestStep] at h
      simp
    obtain ⟨rfl, rfl⟩ := hr
    have hc := (nestRun_counts p false false true false hp).2
    simpa using hc

theorem nestRun_itemClose (s : Bool) : nestRun (s, true) [Tok.itemClose] = some (s, false) := by
  cases s <;> decide

theorem nestRun_itemOpen (s : Bool) : nestRun (s, false) [Tok.itemOpen] = some (s, true) := by
  cases s <;> decide

theorem close_items_out (st : St) :
    (close_items st).out =
      st.out ++ (if st.item_list_open then [itemListEndLine] else []) := by
  unfold close_items
  split <;> simp_all

theorem close_items_item (st : St) : (close_items st).item_list_open = false := by
  unfold close_items
  split <;> simp_all

theorem close_items_sub (st : St) : (close_items st).sub_list_open = st.sub_list_open := by
  unfold close_items
  split <;> simp_all

theorem close_items_sec (st : St) : (close_items st).current_section = st.current_section := by
  unfold close_items
  split <;> simp_all

theorem close_sublist_out (st : St) :
    (close_sublist st).out =
      st.out ++ ((if st.item_list_open then [itemListEndLine] else []) ++
        (if st.sub_list_open then [subListEndLine] else [])) := by
  simp only [close_sublist]
  rw [close_items_sub]
  split <;> simp_all [close_items_out]

theorem close_sublist_item (st : St) : (close_sublist st).item_list_open = false := by
  simp only [close_sublist]
  rw [close_items_sub]
  split <;> simp_all [close_items_item]

theorem close_sublist_sub (st : St) : (close_sublist st).sub_list_open = false := by
  simp only [close_sublist]
  rw [close_items_sub]
  split <;> simp_all [close_items_sub]

theorem close_sublist_sec (st : St) :
    (close_sublist st).current_section = st.current_section := by
  simp only [close_sublist]
  rw [close_items_sub]
  split <;> simp_all [close_items_sec]

theorem nestInv_close_items {st : St} (h : NestInv st) : NestInv (close_items st) := by
  unfold NestInv at *
  rw [close_items_out, close_items_sub, close_items_item, toksOf_append, nestRun_append, h]
  cases st.sub_list_open <;> cases st.item_list_open <;> decide

theorem nestInv_close_sublist {st : St} (h : NestInv st) : NestInv (close_sublist st) := by
  unfold NestInv at *
  rw [close_sublist_out, close_sublist_sub, close_sublist_item, toksOf_append,
    nestRun_append, h]
  cases st.sub_list_open <;> cases st.item_list_open <;> decide

theorem toksOf_nil_of_all_none {ls : List (List Char)} (h : ∀ l ∈ ls, tokOf l = none) :
    toksOf ls = [] := by
  induction ls with
  | nil => rfl
  | cons x xs ih =>
    simp only [toksOf, List.filterMap_cons, h x (by simp)]
    exact ih (fun l hl => h l (by simp [hl]))

theorem nestInv_handleH1 {lines : List (List Char)} {i : Nat} {st : St} {L : List Char}
    (hG : NoForgedDirective lines) (h : NestInv st) : NestInv (handleH1 lines i st L).2 := by
  unfold NestInv at *
  simp only [handleH1]
  rw [toksOf_append, nestRun_append, h]
  rw [toksOf_nil_of_all_none (by
    intro l hl
    simp only [List.mem_cons, List.not_mem_nil, or_false] at hl
    rcases hl with rfl | rfl | rfl | rfl | rfl
    · exact tokOf_const_lines.2.1
    · exact tokOf_nameLine _
    · exact tokOf_contactLine hG _
    · exact tokOf_const_lines.2.2.1
    · exact tokOf_const_lines.2.2.2.1)]
  rfl

theorem nestInv_handleH2 {st : St} {L : List Char} (h : NestInv st) :
    NestInv (handleH2 st L) := by
  have h1 := nestInv_close_sublist h
  unfold NestInv at h1 ⊢
  simp only [handleH2]
  rw [toksOf_append, nestRun_append, h1, close_sublist_sub, close_sublist_item]
  have hs : tokOf subListStartLine = some Tok.subOpen := by decide
  have h2 : toksOf [sectionLine (escape_tex (pyStrip (L.drop 3))), subListStartLine] =
      [Tok.subOpen] := by
    simp [toksOf, List.filterMap_cons, tokOf_sectionLine, hs]
  rw [h2]
  decide

theorem handleH3_item {lines : List (List Char)} {i : Nat} {st : St} {L : List Char} :
    (handleH3 lines i st L).2.item_list_open = false := by
  simp only [handleH3]
  exact close_items_item st

theorem handleH3_sub {lines : List (List Char)} {i : Nat} {st : St} {L : List Char} :
    (handleH3 lines i st L).2.sub_list_open = st.sub_list_open := by
  simp only [handleH3]
  exact close_items_sub st

theorem handleH3_sec {lines : List (List Char)} {i : Nat} {st : St} {L : List Char} :
    (handleH3 lines i st L).2.current_section = st.current_section := by
  simp only [handleH3]
  exact close_items_sec st

theorem toksOf_h3NewLines (edu h4 : Bool) (company uni loc role dates : List Char) :
    toksOf (if edu then [eduLine1 company, eduLine2 uni]
      else if h4 then
        [inline1Line, inline2Line, inline3Line company loc, inline4Line role dates,
         inline5Line]
      else [stdLine1 company loc, stdLine2 role dates]) = [] := by
  apply toksOf_nil_of_all_none
  intro l hl
  cases edu <;> cases h4 <;> simp at hl
  · rcases hl with rfl | rfl
    · exact tokOf_stdLine1 _ _
    · exact tokOf_stdLine2 _ _
  · rcases hl with rfl | rfl | rfl | rfl | rfl
    · exact tokOf_const_lines.2.2.2.2.1
    · exact tokOf_const_lines.2.2.2.2.2.1
    · exact tokOf_inline3Line _ _
    · exact tokOf_inline4Line _ _
    · exact tokOf_const_lines.2.2.2.2.2.2.1
  · rcases hl with rfl | rfl
    · exact tokOf_eduLine1 _
    · exact tokOf_eduLine2 _
  · rcases hl with rfl | rfl
    · exact tokOf_eduLine1 _
    · exact tokOf_eduLine2 _

theorem nestInv_handleH3 {lines : List (List Char)} {i : Nat} {st : St} {L : List Char}
    (h : NestInv st) : NestInv (handleH3 lines i st L).2 := by
  have h1 := nestInv_close_items h
  unfold NestInv at h1 ⊢
  simp only [handleH3]
  rw [toksOf_append, nestRun_append, h1, close_items_sub, close_items_item,
    toksOf_h3NewLines]
  rfl

theorem handleH4_item {st : St} {L : List Char} :
    (handleH4 st L).item_list_open = false := by
  simp only [handleH4]
  exact close_items_item st

theorem handleH4_sub {st : St} {L : List Char} :
    (handleH4 st L).sub_list_open = st.sub_list_open := by
  simp only [handleH4]
  exact close_items_sub st

theorem handleH4_sec {st : St} {L : List Char} :
    (handleH4 st L).current_section = st.current_section := by
  simp only [handleH4]
  exact close_items_sec st

theorem nestInv_handleH4 {st : St} {L : List Char} (h : NestInv st) :
    NestInv (handleH4 st L) := by
  have h1 := nestInv_close_items h
  unfold NestInv at h1 ⊢
  simp only [handleH4]
  rw [toksOf_append, nestRun_append, h1, close_items_sub, close_items_item]
  rw [toksOf_nil_of_all_none (by
    intro l hl
    simp only [List.mem_cons, List.not_mem_nil, or_false] at hl
    rcases hl with rfl | rfl
    · exact tokOf_h4Line1 _
    · exact tokOf_const_lines.2.2.2.2.2.2.2.1)]
  rfl

theorem nestInv_handleBullet {st : St} {L : List Char} (h : NestInv st) :
    NestInv (handleBullet st L) := by
  unfold NestInv at *
  simp only [handleBullet]
  split
  · split
    · rw [toksOf_append, nestRun_append, h,
        toksOf_nil_of_all_none (by
          intro l hl
          simp only [List.mem_cons, List.not_mem_nil, or_false] at hl
          rcases hl with rfl
          exact tokOf_flatLabelLine _ _)]
      rfl
    · rw [toksOf_append, nestRun_append, h,
        toksOf_nil_of_all_none (by
          intro l hl
          simp only [List.mem_cons, List.not_mem_nil, or_false] at hl
          rcases hl with rfl
          exact tokOf_flatPlainLine _)]
      rfl
  · split
    · rw [toksOf_append, nestRun_append, h,
        toksOf_nil_of_all_none (by
          intro l hl
          simp only [List.mem_cons, List.not_mem_nil, or_false] at hl
          rcases hl with rfl
          exact tokOf_itemLine _)]
      rfl
    · next hit =>
      have hitf : st.item_list_open = false := by
        cases hx : st.item_list_open
        · rfl
        · exact absurd hx hit
      rw [toksOf_append, nestRun_append, h, hitf]
      have hs : tokOf itemListStartLine = some Tok.itemOpen := by decide
      have h2 : toksOf [itemListStartLine,
          itemLine (fmt (pyStrip (L.drop 2)))] = [Tok.itemOpen] := by
        simp [toksOf, List.filterMap_cons, tokOf_itemLine, hs]
      rw [h2]
      exact nestRun_itemOpen st.sub_list_open

theorem step_snd_blank {lines : List (List Char)} {i : Nat} {st : St}
    (hk : lineKind (pyStrip (lines.getD i [])) = Kind.blank) :
    (step lines i st).2 = st := by
  simp only [step]
  rw [hk]

theorem step_snd_h1 {lines : List (List Char)} {i : Nat} {st : St}
    (hk : lineKind (pyStrip (lines.getD i [])) = Kind.h1) :
    (step lines i st).2 = (handleH1 lines i st (pyStrip (lines.getD i []))).2 := by
  simp only [step]
  rw [hk]

theorem step_snd_h2 {lines : List (List Char)} {i : Nat} {st : St}
    (hk : lineKind (pyStrip (lines.getD i [])) = Kind.h2) :
    (step lines i st).2 = handleH2 st (pyStrip (lines.getD i [])) := by
  simp only [step]
  rw [hk]

theorem step_snd_h3 {lines : List (List Char)} {i : Nat} {st : St}
    (hk : lineKind (pyStrip (lines.getD i [])) = Kind.h3) :
    (step lines i st).2 = (handleH3 lines i st (pyStrip (lines.getD i []))).2 := by
  simp only [step]
  rw [hk]

theorem step_snd_h4 {lines : List (List Char)} {i : Nat} {st : St}
    (hk : lineKind (pyStrip (lines.getD i [])) = Kind.h4) :
    (step lines i st).2 = handleH4 st (pyStrip (lines.getD i [])) := by
  simp only [step]
  rw [hk]

theorem step_snd_bullet {lines : List (List Char)} {i : Nat} {st : St}
    (hk : lineKind (pyStrip (lines.getD i [])) = Kind.bullet) :
    (step lines i st).2 = handleBullet st (pyStrip (lines.getD i [])) := by
  simp only [step]
  rw [hk]

theorem step_snd_other {lines : List (List Char)} {i : Nat} {st : St}
    (hk : lineKind (pyStrip (lines.getD i [])) = Kind.other) :
    (step lines i st).2 = st := by
  simp only [step]
  rw [hk]

theorem step_fst_blank {lines : List (List Char)} {i : Nat} {st : St}
    (hk : lineKind (pyStrip (lines.getD i [])) = Kind.blank) :
    (step lines i st).1 = i + 1 := by
  simp only [step]
  rw [hk]

theorem step_fst_h1 {lines : List (List Char)} {i : Nat} {st : St}
    (hk : lineKind (pyStrip (lines.getD i [])) = Kind.h1) :
    (step lines i st).1 = skipBlanks lines (i + 1) + 1 := by
  simp only [step]
  rw [hk]
  rfl

theorem step_fst_h2 {lines : List (List Char)} {i : Nat} {st : St}
    (hk : lineKind (pyStrip (lines.getD i [])) = Kind.h2) :
    (step lines i st).1 = i + 1 := by
  simp only [step]
  rw [hk]

theorem step_fst_h3 {lines : List (List Char)} {i : Nat} {st : St}
    (hk : lineKind (pyStrip (lines.getD i [])) = Kind.h3) :
    (step lines i st).1 =
      if (if skipBlanks lines (i + 1) < lines.length then
            (("**").data).isPrefixOf (pyStrip (lines.getD (skipBlanks lines (i + 1)) []))
          else false) = true
      then skipBlanks lines (i + 1) + 1 else i + 1 := by
  simp only [step]
  rw [hk]
  rfl

theorem step_fst_h4 {lines : List (List Char)} {i : Nat} {st : St}
    (hk : lineKind (pyStrip (lines.getD i [])) = Kind.h4) :
    (step lines i st).1 = i + 1 := by
  simp only [step]
  rw [hk]

theorem step_fst_bullet {lines : List (List Char)} {i : Nat} {st : St}
    (hk : lineKind (pyStrip (lines.getD i [])) = Kind.bullet) :
    (step lines i st).1 = i + 1 := by
  simp only [step]
  rw [hk]

theorem step_fst_other {lines : List (List Char)} {i : Nat} {st : St}
    (hk : lineKind (pyStrip (lines.getD i [])) = Kind.other) :
    (step lines i st).1 = i + 1 := by
  simp only [step]
  rw [hk]

theorem nestInv_step {lines : List (List Char)} {i : Nat} {st : St}
    (hG : NoForgedDirective lines) (h : NestInv st) : NestInv (step lines i st).2 := by
  cases hk : lineKind (pyStrip (lines.getD i [])) with
  | blank => rw [step_snd_blank hk]; exact h
  | h1 => rw [step_snd_h1 hk]; exact nestInv_handleH1 hG h
  | h2 => rw [step_snd_h2 hk]; exact nestInv_handleH2 h
  | h3 => rw [step_snd_h3 hk]; exact nestInv_handleH3 h
  | h4 => rw [step_snd_h4 hk]; exact nestInv_handleH4 h
  | bullet => rw [step_snd_bullet hk]; exact nestInv_handleBullet h
  | other => rw [step_snd_other hk]; exact h

theorem nestInv_scanFuel {lines : List (List Char)} (hG : NoForgedDirective lines) :
    ∀ (n i : Nat) (st : St), NestInv st → NestInv (scanFuel n lines i st) := by
  intro n
  induction n with
  | zero => intro i st h; exact h
  | succ n ih =>
    intro i st h
    unfold scanFuel
    split
    · exact ih _ _ (nestInv_step hG h)
    · exact h

theorem flagInv_mk {st st' : St} (h : FlagInv st)
    (hi : st'.item_list_open = st.item_list_open)
    (hs : st'.sub_list_open = st.sub_list_open)
    (hc : st'.current_section = st.current_section) : FlagInv st' := by
  unfold FlagInv at *
  rw [hi, hs, hc]
  exact h

theorem flagInv_handleH2 {st : St} {L : List Char} : FlagInv (handleH2 st L) := by
  unfold FlagInv
  constructor
  · intro _
    left
    simp [handleH2]
  · intro hsub
    exfalso
    simp [handleH2] at hsub

theorem flagInv_handleH3 {lines : List (List Char)} {i : Nat} {st : St} {L : List Char}
    (h : FlagInv st) : FlagInv (handleH3 lines i st L).2 := by
  unfold FlagInv at *
  rw [handleH3_item, handleH3_sub, handleH3_sec]
  exact ⟨fun hf => absurd hf (by simp), h.2⟩

theorem flagInv_handleH4 {st : St} {L : List Char} (h : FlagInv st) :
    FlagInv (handleH4 st L) := by
  unfold FlagInv at *
  rw [handleH4_item, handleH4_sub, handleH4_sec]
  exact ⟨fun hf => absurd hf (by simp), h.2⟩

theorem flagInv_handleBullet {st : St} {L : List Char} (h : FlagInv st) :
    FlagInv (handleBullet st L) := by
  unfold FlagInv at *
  simp only [handleBullet]
  split
  · split
    · exact h
    · exact h
  · split
    · exact h
    · refine ⟨fun _ => ?_, h.2⟩
      cases hs : st.sub_list_open
      · right
        exact h.2 hs
      · left
        rfl

theorem flagInv_step {lines : List (List Char)} {i : Nat} {st : St}
    (h : FlagInv st) : FlagInv (step lines i st).2 := by
  cases hk : lineKind (pyStrip (lines.getD i [])) with
  | blank => rw [step_snd_blank hk]; exact h
  | h1 => rw [step_snd_h1 hk]; exact flagInv_mk h rfl rfl rfl
  | h2 => rw [step_snd_h2 hk]; exact flagInv_handleH2
  | h3 => rw [step_snd_h3 hk]; exact flagInv_handleH3 h
  | h4 => rw [step_snd_h4 hk]; exact flagInv_handleH4 h
  | bullet => rw [step_snd_bullet hk]; exact flagInv_handleBullet h
  | other => rw [step_snd_other hk]; exact h

theorem skipBlanksFuel_ge : ∀ (n : Nat) (lines : List (List Char)) (j : Nat),
    j ≤ skipBlanksFuel n lines j := by
  intro n
  induction n with
  | zero => intro lines j; exact Nat.le_refl j
  | succ n ih =>
    intro lines j
    unfold skipBlanksFuel
    split
    · exact Nat.le_trans (Nat.le_succ j) (ih lines (j + 1))
    · exact Nat.le_refl j

theorem skipBlanks_ge (lines : List (List Char)) (j : Nat) : j ≤ skipBlanks lines j :=
  skipBlanksFuel_ge _ _ _

theorem handleH3_fst {lines : List (List Char)} {i : Nat} {st : St} {L : List Char} :
    (handleH3 lines i st L).1 =
      if (if skipBlanks lines (i + 1) < lines.length then
            (("**").data).isPrefixOf (pyStrip (lines.getD (skipBlanks lines (i + 1)) []))
          else false) = true
      then skipBlanks lines (i + 1) + 1 else i + 1 := rfl

theorem step_fst_lt (lines : List (List Char)) (i : Nat) (st : St) :
    i < (step lines i st).1 := by
  have hsb := skipBlanks_ge lines (i + 1)
  cases hk : lineKind (pyStrip (lines.getD i [])) with
  | blank => rw [step_fst_blank hk]; omega
  | h1 => rw [step_fst_h1 hk]; omega
  | h2 => rw [step_fst_h2 hk]; omega
  | h3 =>
    rw [step_fst_h3 hk]
    cases hmh : (if skipBlanks lines (i + 1) < lines.length then
        (("**").data).isPrefixOf (pyStrip (lines.getD (skipBlanks lines (i + 1)) []))
      else false) with
    | false =>
      rw [if_neg (by simp)]
      omega
    | true =>
      rw [if_pos rfl]
      omega
  | h4 => rw [step_fst_h4 hk]; omega
  | bullet => rw [step_fst_bullet hk]; omega
  | other => rw [step_fst_other hk]; omega

theorem scanFuel_stop (n : Nat) (lines : List (List Char)) (i : Nat) (st : St)
    (h : lines.length ≤ i) : scanFuel n lines i st = st := by
  cases n with
  | zero => rfl
  | succ n =>
    unfold scanFuel
    rw [if_neg (by omega)]

theorem scanFuel_congr : ∀ (n m : Nat) (lines : List (List Char)) (i : Nat) (st : St),
    lines.length - i ≤ n → lines.length - i ≤ m →
    scanFuel n lines i st = scanFuel m lines i st := by
  intro n
  induction n with
  | zero =>
    intro m lines i st hn hm
    rw [scanFuel_stop 0 lines i st (by omega), scanFuel_stop m lines i st (by omega)]
  | succ n ih =>
    intro m lines i st hn hm
    cases m with
    | zero =>
      rw [scanFuel_stop (n + 1) lines i st (by omega), scanFuel_stop 0 lines i st (by omega)]
    | succ m =>
      by_cases hi : i < lines.length
      · show (if i < lines.length then
            scanFuel n lines (step lines i st).1 (step lines i st).2
          else st) =
          (if i < lines.length then
            scanFuel m lines (step lines i st).1 (step lines i st).2
          else st)
        rw [if_pos hi, if_pos hi]
        have hlt := step_fst_lt lines i st
        exact ih m lines _ _ (by omega) (by omega)
      · rw [scanFuel_stop (n + 1) lines i st (by omega),
          scanFuel_stop (m + 1) lines i st (by omega)]

theorem splitFirstSep_eq_none (seps : List (List Char)) (text : List Char)
    (h : ∀ s ∈ seps, containsSub s text = false) : splitFirstSep seps text = none := by
  induction seps with
  | nil => rfl
  | cons s ss ih =>
    have hs := h s (by simp)
    unfold containsSub at hs
    unfold splitFirstSep
    cases ho : splitOnce s text with
    | none => exact ih (fun x hx => h x (by simp [hx]))
    | some p =>
      rw [ho] at hs
      simp at hs

theorem handleBullet_flat {st : St} {L : List Char}
    (hf : isFlatSec st.current_section = true) :
    (handleBullet st L).item_list_open = st.item_list_open ∧
    (handleBullet st L).sub_list_open = st.sub_list_open ∧
    toksOf (handleBullet st L).out = toksOf st.out := by
  simp only [handleBullet, hf, if_pos]
  cases flatLabel (fmt (pyStrip (L.drop 2))) with
  | none =>
    refine ⟨rfl, rfl, ?_⟩
    have hnil : toksOf [flatPlainLine (fmt (pyStrip (L.drop 2)))] = [] :=
      toksOf_nil_of_all_none (by
        intro l hl
        simp only [List.mem_cons, List.not_mem_nil, or_false] at hl
        rcases hl with rfl
        exact tokOf_flatPlainLine _)
    rw [toksOf_append, hnil, List.append_nil]
  | some p =>
    obtain ⟨g1, g2⟩ := p
    refine ⟨rfl, rfl, ?_⟩
    have hnil : toksOf [flatLabelLine g1 g2] = [] :=
      toksOf_nil_of_all_none (by
        intro l hl
        simp only [List.mem_cons, List.not_mem_nil, or_false] at hl
        rcases hl with rfl
        exact tokOf_flatLabelLine _ _)
    rw [toksOf_append, hnil, List.append_nil]

theorem handleBullet_nonflat {st : St} {L : List Char}
    (hf : isFlatSec st.current_section = false) :
    (handleBullet st L).item_list_open = true ∧
    (st.item_list_open = false →
      toksOf (handleBullet st L).out = toksOf st.out ++ [Tok.itemOpen]) := by
  simp only [handleBullet, hf]
  rw [if_neg (by simp)]
  cases hit : st.item_list_open with
  | true =>
    rw [if_pos rfl]
    exact ⟨rfl, fun hfalse => by simp at hfalse⟩
  | false =>
    rw [if_neg (by simp)]
    refine ⟨rfl, fun _ => ?_⟩
    have hs : tokOf itemListStartLine = some Tok.itemOpen := by decide
    have h2 : toksOf [itemListStartLine, itemLine (fmt (pyStrip (L.drop 2)))] =
        [Tok.itemOpen] := by
      simp [toksOf, List.filterMap_cons, tokOf_itemLine, hs]
    rw [toksOf_append, h2]

/-! ### Claim theorems -/

/-- C1 (counterexample): a document whose only content line after the title
is literally `\resumeSubHeadingListStart` gets that text emitted verbatim as
the contact line, so the returned LaTeX contains one more open-list
directive line than close-list directive lines — the balance claim fails on
this input. -/
theorem build_resume_balance_cex :
    ¬ BalancedToks (toksOf (build_resume_out (("# N\n\\resumeSubHeadingListStart").data))) ∧
    countTok Tok.subOpen
      (toksOf (build_resume_out (("# N\n\\resumeSubHeadingListStart").data))) = 1 ∧
    countTok Tok.subClose
      (toksOf (build_resume_out (("# N\n\\resumeSubHeadingListStart").data))) = 0 :=
  ⟨by decide, by decide, by decide⟩

/-- C1 (amended): for every input document none of whose lines turns into a
directive line through the contact emission (two spaces prepended to the
stripped, inline-formatted line text), the directive lines in the output of
`build_resume_tex` are balanced — open-list counts equal close-list counts
for both list kinds — and properly nested: a sub-list close is never
emitted while an item list is still open. -/
theorem build_resume_balanced_nested (md : List Char)
    (hG : NoForgedDirective (pySplit (pyStrip md))) :
    BalancedToks (toksOf (build_resume_out md)) ∧
    ProperlyNested (toksOf (build_resume_out md)) := by
  have h0 : NestInv initSt := by unfold NestInv; decide
  have hF : NestInv (scanFuel (pySplit (pyStrip md)).length (pySplit (pyStrip md)) 0 initSt) :=
    nestInv_scanFuel hG _ _ _ h0
  have hC := nestInv_close_sublist hF
  unfold NestInv at hC
  rw [close_sublist_sub, close_sublist_item] at hC
  have hout : toksOf (build_resume_out md) =
      toksOf (close_sublist (scanFuel (pySplit (pyStrip md)).length
        (pySplit (pyStrip md)) 0 initSt)).out := by
    simp only [build_resume_out]
    rw [toksOf_append]
    have he : toksOf [endDocLine] = [] :=
      toksOf_nil_of_all_none (by
        intro l hl
        simp only [List.mem_cons, List.not_mem_nil, or_false] at hl
        rcases hl with rfl
        exact tokOf_const_lines.2.2.2.2.2.2.2.2)
    rw [he, List.append_nil]
  rw [hout]
  exact ⟨nestRun_balanced _ hC, nestRun_properlyNested _ _ hC⟩

/-- C1 (witness): the amended balance theorem applied to a concrete
resume document. -/
theorem build_resume_balanced_nested_witness :
    BalancedToks (toksOf (build_resume_out
      (("# Jane Doe\n\nJane@example.com\n\n## Experience\n\n### Acme \u2014 Engineer\n**Remote | 2020\u20132022**\n- Built *X*\n").data))) :=
  (build_resume_balanced_nested _ (by decide)).1

/-- C2 (counterexample): processing the single line `- x` from the initial
state — a bullet before any section header — opens an item list while the
sub-list flag is still false, so `itemListOpen → subListOpen` fails in a
reachable state. -/
theorem item_without_sub_reachable :
    ((step (pySplit (pyStrip (("- x").data))) 0 initSt).2.item_list_open = true) ∧
    ((step (pySplit (pyStrip (("- x").data))) 0 initSt).2.sub_list_open = false) := by
  constructor
  · decide
  · decide

/-- C2 (amended): the invariant that holds in every reachable state is
`itemListOpen → (subListOpen ∨ currentSection = empty)` together with
`¬subListOpen → currentSection = empty`: the implication from the claim can
fail only before the first section header (while `currentSection` is still
empty, as when a bullet precedes any section).  It holds in the initial
state and is preserved by every per-line handler step. -/
theorem flag_invariant_step :
    FlagInv initSt ∧
    ∀ (lines : List (List Char)) (i : Nat) (st : St),
      FlagInv st → FlagInv (step lines i st).2 :=
  ⟨by decide, fun _ _ _ h => flagInv_step h⟩

/-- C2 (witness): the amended invariant after one handler step on a
concrete line. -/
theorem flag_invariant_step_witness :
    FlagInv (step (pySplit (pyStrip (("## A").data))) 0 initSt).2 :=
  flag_invariant_step.2 _ 0 initSt (by decide)

/-- C3 (confirmed): `fmt` escapes the literal characters before any
bold/italic/link substitution — by definition the escaping pass runs first —
and on `"**a&b**"` it returns the bold command wrapping the escaped
ampersand, `\textbf{a\&b}`, not an escaped bold marker. -/
theorem fmt_escape_before_markup :
    fmt (("**a&b**").data) = ("\\textbf\x7ba\\&b\x7d").data ∧
    ∀ t, fmt t = symbolSub (subLink (subItalic (subBold (escape_tex t)))) :=
  ⟨by decide, fun _ => rfl⟩

/-- C4 (confirmed): `parse_heading3` splits on the first matching separator
from the prioritized list, so `"### A — B"`, `"### A -- B"` and `"### A—B"`
all yield `("A", "B")`, and any heading text containing none of the
separators yields the whole trimmed text with an empty second component. -/
theorem parse_heading3_separators :
    parse_heading3 (("### A \u2014 B").data) = (("A").data, ("B").data) ∧
    parse_heading3 (("### A -- B").data) = (("A").data, ("B").data) ∧
    parse_heading3 (("### A\u2014B").data) = (("A").data, ("B").data) ∧
    ∀ line, (∀ s ∈ h3seps,
        containsSub s (pyStrip (line.dropWhile (fun c => c = '#'))) = false) →
      parse_heading3 line = (pyStrip (line.dropWhile (fun c => c = '#')), []) := by
  refine ⟨by decide, by decide, by decide, ?_⟩
  intro line h
  simp only [parse_heading3]
  rw [splitFirstSep_eq_none h3seps _ h]

/-- C4 (witness): a heading with no separator yields the whole trimmed
text. -/
theorem parse_heading3_separators_witness :
    parse_heading3 (("### hello world").data) = (("hello world").data, []) :=
  parse_heading3_separators.2.2.2 (("### hello world").data) (by decide)

/-- C5 (confirmed): when an entry heading is not followed (after blank
lines) by a line starting with the bold marker, the `###` handler advances
the cursor by exactly one, so the next non-blank line is handled by its own
handler on a later iteration. -/
theorem h3_lookahead_no_overconsume (lines : List (List Char)) (i : Nat) (st : St)
    (hk : lineKind (pyStrip (lines.getD i [])) = Kind.h3)
    (hm : skipBlanks lines (i + 1) < lines.length →
      (("**").data).isPrefixOf (pyStrip (lines.getD (skipBlanks lines (i + 1)) [])) = false) :
    (step lines i st).1 = i + 1 := by
  rw [step_fst_h3 hk]
  by_cases hj : skipBlanks lines (i + 1) < lines.length
  · rw [if_pos hj, hm hj, if_neg (by simp)]
  · rw [if_neg hj, if_neg (by simp)]

/-- C5 (witness): a heading followed by a bullet leaves the cursor on the
bullet. -/
theorem h3_lookahead_no_overconsume_witness :
    (step (pySplit (pyStrip (("### A\n- b").data))) 0 initSt).1 = 1 :=
  h3_lookahead_no_overconsume _ 0 initSt (by decide) (by decide)

/-- C6 (counterexample): when the next non-blank line after the title is a
`##` section header, that line is consumed as the contact line (emitted
escaped inside the header block) and is not handled by the section handler:
the output contains the escaped text and no sub-list open directive. -/
theorem h1_consumes_structural_line :
    (("  \\#\\# Skills").data ∈ build_resume_out (("# Jane\n## Skills").data)) ∧
    subListStartLine ∉ build_resume_out (("# Jane\n## Skills").data) := by
  constructor
  · decide
  · decide

/-- C6 (amended): when the title line is not followed by any non-blank line
the emitted header block uses an empty contact string; otherwise the first
non-blank line after the title — whatever its kind — is consumed as the
contact line, and the cursor advances past it. -/
theorem h1_contact_consumption (lines : List (List Char)) (i : Nat) (st : St)
    (hk : lineKind (pyStrip (lines.getD i [])) = Kind.h1) :
    (step lines i st).1 = skipBlanks lines (i + 1) + 1 ∧
    (step lines i st).2.out = st.out ++
      [tabBeginLine,
       nameLine (escape_tex (pyStrip ((pyStrip (lines.getD i [])).drop 2))),
       contactLine (if skipBlanks lines (i + 1) < lines.length then
         fmt (pyStrip (lines.getD (skipBlanks lines (i + 1)) [])) else []),
       tabEndLine, vspace2mmLine] := by
  refine ⟨step_fst_h1 hk, ?_⟩
  rw [step_snd_h1 hk]
  rfl

/-- C6 (witness): the header handler on a concrete document. -/
theorem h1_contact_consumption_witness :
    (step (pySplit (pyStrip (("# A\n\nB").data))) 0 initSt).1 =
      skipBlanks (pySplit (pyStrip (("# A\n\nB").data))) 1 + 1 :=
  (h1_contact_consumption _ 0 initSt (by decide)).1

/-- C7 (counterexample): the `extra` field parsed from the metadata line is
folded into the role and emitted with its en dash intact — the output of a
concrete document contains the line `      {x–y}{2020--2021}` whose role
part still holds the raw en dash character, so not every dash in every
extracted field is normalized. -/
theorem meta_extra_dash_not_normalized :
    (("      \x7bx\u2013y\x7d\x7b2020--2021\x7d").data ∈
      build_resume_out (("## Work\n### Co\n**A | 2020\u20132021** | *x\u2013y*").data)) ∧
    '\u2013' ∈ (("      \x7bx\u2013y\x7d\x7b2020--2021\x7d").data) := by
  constructor
  · decide
  · decide

/-- C7 (amended): a line on which the anchored bold pattern fails yields
all-empty fields from `parse_meta`, and of the extracted fields only
`location` and `dates` have their en dashes normalized to `--` in the
emitted values — the `extra` field is folded into the role unnormalized (the
same concrete document shows the normalized dates beside the raw-dash
extra). -/
theorem parse_meta_fields (line : List Char) :
    (metaMatch (pyStrip line) = none → parse_meta line = ([], [], [])) ∧
    stdLine2 (("x\u2013y").data) (escape_tex (replaceEnDash (("2020\u20132021").data))) ∈
      build_resume_out (("## Work\n### Co\n**A | 2020\u20132021** | *x\u2013y*").data) := by
  constructor
  · intro h
    simp only [parse_meta]
    rw [h]
  · decide

/-- C7 (witness): a non-matching line yields all-empty fields. -/
theorem parse_meta_fields_witness :
    parse_meta (("just text").data) = ([], [], []) :=
  (parse_meta_fields (("just text").data)).1 (by decide)

/-- C8 (confirmed): flat rendering of a bullet is activated exactly when
the lower-cased current section contains `skill` or `co-curricular`
(`isFlatSec`): a flat bullet emits no list directives and leaves the flags
unchanged, a non-flat bullet ensures the item list is open (emitting the
open directive when it was closed); `"Skills & Tools"` activates flat
rendering while `"Work Experience"` does not, as the end-to-end directive
sequences of the two documents show. -/
theorem flat_section_exactly (st : St) (L : List Char) :
    ((isFlatSec st.current_section = true →
        (handleBullet st L).item_list_open = st.item_list_open ∧
        (handleBullet st L).sub_list_open = st.sub_list_open ∧
        toksOf (handleBullet st L).out = toksOf st.out) ∧
      (isFlatSec st.current_section = false →
        (handleBullet st L).item_list_open = true ∧
        (st.item_list_open = false →
          toksOf (handleBullet st L).out = toksOf st.out ++ [Tok.itemOpen]))) ∧
    (isFlatSec (pyLower (("Skills & Tools").data)) = true ∧
      isFlatSec (pyLower (("Work Experience").data)) = false) ∧
    toksOf (build_resume_out (("## Skills & Tools\n- a").data)) =
      [Tok.subOpen, Tok.subClose] ∧
    toksOf (build_resume_out (("## Work Experience\n- a").data)) =
      [Tok.subOpen, Tok.itemOpen, Tok.itemClose, Tok.subClose] :=
  ⟨⟨fun hf => handleBullet_flat hf, fun hf => handleBullet_nonflat hf⟩,
    ⟨by decide, by decide⟩, by decide, by decide⟩

/-- C8 (witness): a flat bullet in a skills section emits no directive. -/
theorem flat_section_exactly_witness :
    toksOf (handleBullet ⟨[], false, false, ("skills").data⟩ (("- a").data)).out =
      toksOf ([] : List (List Char)) :=
  ((flat_section_exactly ⟨[], false, false, ("skills").data⟩ (("- a").data)).1.1
    (by decide)).2.2

/-- C9 (counterexample): calling `close_sublist` in the state where the
sub-list flag is already false but the item flag is true emits the
item-list close directive and changes the state, so "calling either
operation when its flag is already false emits nothing and changes nothing"
fails for `close_sublist`. -/
theorem close_sublist_emits_with_flag_false :
    ((⟨[], true, false, []⟩ : St).sub_list_open = false) ∧
    (close_sublist ⟨[], true, false, []⟩).out = [itemListEndLine] ∧
    close_sublist ⟨[], true, false, []⟩ ≠ (⟨[], true, false, []⟩ : St) := by
  refine ⟨rfl, by decide, by decide⟩

/-- C9 (amended): both close operations are idempotent from any flag state;
`close_items` with the item flag false changes nothing; and `close_sublist`
changes nothing when its flag is false provided the item flag is false as
well (when the item flag is still true it first emits the item-list
close). -/
theorem close_ops_idempotent (st : St) :
    close_items (close_items st) = close_items st ∧
    close_sublist (close_sublist st) = close_sublist st ∧
    (st.item_list_open = false → close_items st = st) ∧
    (st.sub_list_open = false → st.item_list_open = false → close_sublist st = st) := by
  have hci : ∀ s : St, s.item_list_open = false → close_items s = s := by
    intro s hs
    unfold close_items
    rw [if_neg (by simp [hs])]
  have hcs : ∀ s : St, s.sub_list_open = false → s.item_list_open = false →
      close_sublist s = s := by
    intro s hs hi
    simp only [close_sublist]
    rw [hci s hi, if_neg (by simp [hs])]
  exact ⟨hci _ (close_items_item st), hcs _ (close_sublist_sub st) (close_sublist_item st),
    hci st, hcs st⟩

/-- C9 (witness): the close operations on the all-false state. -/
theorem close_ops_idempotent_witness :
    close_sublist (⟨[], false, false, []⟩ : St) = (⟨[], false, false, []⟩ : St) :=
  (close_ops_idempotent ⟨[], false, false, []⟩).2.2.2 rfl rfl

/-- C10 (confirmed): in every branch of the scan loop the cursor strictly
increases, and consequently the loop terminates on every input: any fuel at
least `lines.length - i` computes the same final state, so the scan is
independent of the bound and always ends. -/
theorem scan_cursor_increases_terminates :
    (∀ (lines : List (List Char)) (i : Nat) (st : St), i < (step lines i st).1) ∧
    (∀ (n m : Nat) (lines : List (List Char)) (i : Nat) (st : St),
      lines.length - i ≤ n → lines.length - i ≤ m →
      scanFuel n lines i st = scanFuel m lines i st) :=
  ⟨step_fst_lt, scanFuel_congr⟩

/-- C10 (witness): the scan of a concrete document is fuel-independent. -/
theorem scan_cursor_increases_terminates_witness :
    scanFuel 2 (pySplit (pyStrip (("- x").data))) 0 initSt =
      scanFuel 9 (pySplit (pyStrip (("- x").data))) 0 initSt :=
  scan_cursor_increases_terminates.2 2 9 _ 0 initSt (by decide) (by decide)

end Md2Pdf
